import Mathlib

/-!
Verification of the MangasIo site plugin (src/izneo_get/plugins/mangas_io.py).

Network calls, terminal input and the filesystem are modelled as oracles
(explicit function arguments); the plugin's mutable attributes become
explicit state records.  Python dictionaries become ordered association
lists with insert-or-update semantics, which preserves insertion order,
`len`, and `get` exactly as Python dicts do.
-/

/-- Ordered association list model of a Python `dict` insertion
(`d[k] = v` / dict-comprehension step): update the value in place if the
key is present, otherwise append at the end. -/
def dictInsert [BEq α] : List (α × β) → α → β → List (α × β)
  | [], k, v => [(k, v)]
  | p :: m, k, v => if p.1 == k then (k, v) :: m else p :: dictInsert m k v

/-- `d.get(k)`: the value at the first (for a real dict, only) occurrence
of the key, or `none`. -/
def dictGet [BEq α] (m : List (α × β)) (k : α) : Option β :=
  (m.find? (fun p => p.1 == k)).map (fun p => p.2)

/- ## Data model of the backend responses -/

/-- One entry of `chapter["pages"]`: `{"number": ..., "_id": ...}`. -/
structure Page where
  number : Nat
  id : String
  deriving DecidableEq, Repr

/-- One entry of a volume's `chapters` list; only `_id` is read by the code. -/
structure ChapterRef where
  id : String
  deriving DecidableEq, Repr

/-- One entry of `manga["volumes"]`. -/
structure Volume where
  number : Nat
  description : String
  chapters : List ChapterRef
  deriving DecidableEq, Repr

/-- An entry of `manga["authors"]`; only `name` is read. -/
structure Author where
  name : String
  deriving DecidableEq, Repr

/-- `manga["chapter"]`: the target chapter of the `getReadingChapter` query. -/
structure Chapter where
  id : String
  number : Rat
  pageCount : Nat
  pages : List Page
  deriving DecidableEq, Repr

/-- `data["data"]["manga"]` of the `getReadingChapter` response. -/
structure Manga where
  title : String
  direction : String
  authors : List Author
  volumes : List Volume
  chapter : Chapter
  deriving DecidableEq, Repr

/-- The JSON document of the metadata response, at the granularity at which
`get_book_infos` inspects it: `empty` models a falsy document (`not data`),
`noData` a truthy document whose `data` entry is missing or falsy, and
`withData m` a document with `data.manga = m`. -/
inductive RespBody
  | empty
  | noData
  | withData (m : Manga)
  deriving DecidableEq, Repr

/-- The HTTP response to the `getReadingChapter` POST. -/
structure ChapterResponse where
  status_code : Nat
  body : RespBody
  deriving DecidableEq, Repr

/-- Read direction enumeration.  Modelled from the spec: the host type
`ReadDirection` lives in `izneo_get/book_infos.py`, which is not under
`src/`; §6 of the spec fixes it as "a host-defined read-direction
enumeration with exactly two values". -/
inductive ReadDirection
  | LTOR
  | RTOL
  deriving DecidableEq, Repr

/-- Book metadata record.  Modelled from the spec: the host dataclass
`BookInfos` lives in `izneo_get/book_infos.py`, which is not under `src/`.
Its fields are exactly those passed by the constructor calls in
`mangas_io.py`, and per §4.5/§4.6 of the spec every field that a
constructor call omits (in particular `custom_fields` at the sentinel
`BookInfos(title="", pages=0)`) defaults to an absent/empty value.
`custom_fields` only ever holds the `pages_map` table here, so it is
modelled as that table directly. -/
structure BookInfos where
  title : String
  pages : Nat
  authors : String := ""
  volume : String := ""
  chapter : String := ""
  description : String := ""
  read_direction : ReadDirection := ReadDirection.LTOR
  page_urls : List String := []
  custom_fields : Option (List (Nat × String)) := none
  deriving DecidableEq, Repr

/- ## Metadata resolution (`_fill_infos`, `get_book_infos`) -/

/-- The volume scan of `_fill_infos` (lines 172-179): for each volume in
order, if its chapter list contains the target chapter id, overwrite the
accumulated `(volume_number, volume_desc)` pair with this volume's data
(the `break` only leaves the inner loop, so the outer loop continues). -/
def volumeScan (cid : String) : List Volume → String × String → String × String
  | [], acc => acc
  | v :: vs, acc =>
    if v.chapters.any (fun c => c.id == cid) then
      volumeScan cid vs (toString v.number, v.description)
    else
      volumeScan cid vs acc

/-- The dict comprehension `{page["number"]: page["_id"] for page in pages}`
(line 186). -/
def buildPagesMap (pages : List Page) : List (Nat × String) :=
  pages.foldl (fun mp p => dictInsert mp p.number p.id) []

/-- Lines 184-186: `pages_map = {}` then, when `chapter_data["pages"]` is
truthy, the dict comprehension. -/
def pages_map_of (pages : List Page) : List (Nat × String) :=
  if pages.isEmpty then [] else buildPagesMap pages

/-- `_fill_infos` (lines 163-202). -/
def fill_infos (m : Manga) : BookInfos :=
  let vres := volumeScan m.chapter.id m.volumes ("", "")
  let pages_map := pages_map_of m.chapter.pages
  { title := m.title
    pages := m.chapter.pageCount
    authors := String.intercalate ", " (m.authors.map Author.name)
    volume := vres.1
    chapter := toString m.chapter.number
    description := vres.2
    read_direction := if m.direction == "rtl" then ReadDirection.RTOL
                      else ReadDirection.LTOR
    page_urls := List.replicate pages_map.length ""
    custom_fields := some pages_map }

/-- `get_book_infos` (lines 134-161), with the HTTP response as oracle
argument.  URL parsing and request construction are modelled separately
(`parse_url`); they do not influence how the response is mapped. -/
def get_book_infos (resp : ChapterResponse) : BookInfos :=
  if resp.status_code ≠ 200 then { title := "", pages := 0 }
  else
    match resp.body with
    | RespBody.empty => { title := "", pages := 0 }
    | RespBody.noData => { title := "", pages := 0 }
    | RespBody.withData m => fill_infos m

/- ## Token lifecycle (`read_token`, `write_token`, `is_token_valid`,
`authenticate`) -/

/-- The HTTP response to the `POST /auth/token_validation` probe:
status code and JSON body (an object, read only at key `"status"`). -/
structure ProbeResponse where
  status_code : Nat
  body : List (String × String)
  deriving DecidableEq, Repr

/-- `is_token_valid` (lines 75-101), with the outcome of `requests.post`
as oracle argument: `none` models a `requests.RequestException`
(connection error / timeout), `some r` a delivered response. -/
def is_token_valid (probeResult : Option ProbeResponse) (bearer : String) : Bool :=
  if bearer = "" then false
  else
    match probeResult with
    | none => false
    | some r =>
      if r.status_code ≠ 200 then false
      else dictGet r.body "status" == some "success"

/-- Mutable plugin state touched by `authenticate`: the cache file content
(`none` = file absent), `self.bearer`, and `self.headers`. -/
structure AuthState where
  cache : Option String
  bearer : String
  headers : List (String × String)
  deriving DecidableEq, Repr

/-- `read_token` (lines 55-64): `self.bearer = f.read()`, with a missing
cache file (`FileNotFoundError`) leaving `self.bearer` unchanged. -/
def read_token (st : AuthState) : AuthState :=
  match st.cache with
  | some t => { st with bearer := t }
  | none => st

/-- `write_token` (lines 66-73): overwrite the cache file with the token. -/
def write_token (st : AuthState) (token : String) : AuthState :=
  { st with cache := some token }

/-- The `while not self.is_token_valid(): self.bearer = self.get_bearer()`
loop of `authenticate` (lines 50-51).  `probe k` is the network outcome of
the `k`-th validation call, `prompts k` the token produced by the `k`-th
`get_bearer` (interactive login) call; `fuel` bounds the number of
iterations, `none` modelling a run still looping after `fuel` logins.
Returns the accepted token and the number of `get_bearer` calls made. -/
def authLoop (probe : Nat → Option ProbeResponse) (prompts : Nat → String) :
    Nat → String → Nat → Option (String × Nat)
  | 0, bearer, k =>
    if is_token_valid (probe k) bearer then some (bearer, k) else none
  | fuel + 1, bearer, k =>
    if is_token_valid (probe k) bearer then some (bearer, k)
    else authLoop probe prompts fuel (prompts k) (k + 1)

/-- `authenticate` (lines 48-53): read the cached token, loop until the
validator accepts, then persist the accepted token and install the
authorization header. -/
def authenticate (probe : Nat → Option ProbeResponse) (prompts : Nat → String)
    (fuel : Nat) (st : AuthState) : Option (AuthState × Nat) :=
  let st1 := read_token st
  match authLoop probe prompts fuel st1.bearer 0 with
  | none => none
  | some (tok, k) =>
    let st2 := write_token { st1 with bearer := tok } tok
    some ({ st2 with
            headers := dictInsert st2.headers "authorization"
              ("Bearer " ++ tok) }, k)

/- ## URL parsing (`_parse_url`) -/

/-- The literal head of the pattern
`https://www\.mangas\.io/lire/([^/]+)/([\d\.]+)`. -/
def lirePat : List Char := "https://www.mangas.io/lire/".toList

/-- A character matched by the second capture group `[\d\.]+`. -/
def isChapterChar (c : Char) : Bool := c.isDigit || c == '.'

/-- Matching of `([^/]+)/([\d\.]+)` at a fixed position (right after the
literal head): the first group greedily takes the non-slash run (which
must be non-empty), then a literal slash, then a non-empty run of digits
and dots. -/
def matchGroups (s : List Char) : Option (List Char × List Char) :=
  let g1 := s.takeWhile (fun c => c ≠ '/')
  if g1.isEmpty then none
  else
    match s.drop g1.length with
    | '/' :: rest =>
      let g2 := rest.takeWhile isChapterChar
      if g2.isEmpty then none else some (g1, g2)
    | _ => none

/-- `re.search` of the URL pattern: try each start position from the left;
a position matches when the literal head occurs there and the two groups
match right after it. -/
def searchFrom : List Char → Option (List Char × List Char)
  | [] => none
  | c :: cs =>
    if (c :: cs).take lirePat.length = lirePat then
      match matchGroups ((c :: cs).drop lirePat.length) with
      | some r => some r
      | none => searchFrom cs
    else searchFrom cs

/-- Little-endian-free digit run to a natural number. -/
def natOfDigits (cs : List Char) : Nat :=
  cs.foldl (fun n c => 10 * n + (c.toNat - '0'.toNat)) 0

/-- Python `float()` on a string made of digits and dots (the only strings
the second capture group can produce), as an exact rational: digits-only,
`d.d`, `d.` and `.d` parse; a bare `.` or more than one dot raise
`ValueError`, modelled as `none`.  Values such as `12.5` that are exactly
representable are preserved. -/
def parsePyFloat (s : String) : Option Rat :=
  let cs := s.toList
  if cs.isEmpty then none
  else if cs.all Char.isDigit then some (mkRat (natOfDigits cs) 1)
  else
    let ip := cs.takeWhile Char.isDigit
    match cs.drop ip.length with
    | '.' :: fp =>
      if fp.all Char.isDigit && !(ip.isEmpty && fp.isEmpty) then
        some (mkRat (natOfDigits ip * 10 ^ fp.length + natOfDigits fp)
          (10 ^ fp.length))
      else none
    | _ => none

/-- The `(self.slug, self.chapter_nb)` pair mutated by `_parse_url`. -/
structure ParseState where
  slug : String
  chapter_nb : Rat
  deriving DecidableEq, Repr

/-- `_parse_url` (lines 127-132): a no-op once `self.slug` is truthy;
otherwise search the URL, and on a regex match set the pair (converting
the chapter group with `float`, whose `ValueError` on a group like
`1.2.3` propagates — modelled as `none`). -/
def parse_url (url : String) (st : ParseState) : Option ParseState :=
  if st.slug = "" then
    match searchFrom url.toList with
    | some (g1, g2) =>
      match parsePyFloat (String.mk g2) with
      | some q => some { slug := String.mk g1, chapter_nb := q }
      | none => none
    | none => some st
  else some st

/- ## Page resolution (`before_download_page`) -/

/-- The body of `before_download_page` (lines 204-241), run under the
semaphore (modelled separately): re-fetch metadata (`metaResp` is the
oracle for that network call), look up `page_num + 1` in the attached
`pages_map`, and only when a truthy page id is found issue the
`getPageById` call, whose outcome is the oracle `fetchPage` (`none`
models a non-200 status or any exception, both converted to `""`).
Returns the page URL (or `""`) together with whether the `getPageById`
network call was issued. -/
def before_download_page (metaResp : ChapterResponse)
    (fetchPage : String → Option String) (page_num : Nat) : String × Bool :=
  let book_infos := get_book_infos metaResp
  match book_infos.custom_fields with
  | none => ("", false)
  | some pages_map =>
    match dictGet pages_map (page_num + 1) with
    | none => ("", false)
    | some page_id =>
      if page_id = "" then ("", false)
      else
        match fetchPage page_id with
        | none => ("", true)
        | some url => (url, true)

/- ## The single-flight gate (`sem = asyncio.Semaphore(1)`,
`async with self.sem:`) -/

/-- Phase of one `before_download_page` task with respect to the gate:
waiting to enter `async with self.sem`, executing the body, or finished. -/
inductive Phase
  | pending
  | running
  | done
  deriving DecidableEq, Repr

/-- State of the semaphore discipline: the number of free permits
(`asyncio.Semaphore(1)` starts with one) and the phase of each task. -/
structure SemState where
  avail : Nat
  tasks : List Phase
  deriving DecidableEq, Repr

/-- Transitions of the gate: a pending task may enter the body only by
taking a free permit (`async with self.sem` acquires, decrementing the
counter); a running task leaving the body releases its permit. -/
inductive SemStep : SemState → SemState → Prop
  | acquire (s : SemState) (i : Nat) (a : Nat)
      (hi : s.tasks.get? i = some Phase.pending) (ha : s.avail = a + 1) :
      SemStep s ⟨a, s.tasks.set i Phase.running⟩
  | release (s : SemState) (i : Nat)
      (hi : s.tasks.get? i = some Phase.running) :
      SemStep s ⟨s.avail + 1, s.tasks.set i Phase.done⟩

/-- Initial state: one permit, `n` requested pages all waiting. -/
def initSem (n : Nat) : SemState := ⟨1, List.replicate n Phase.pending⟩

/-- Number of tasks currently executing the `before_download_page` body. -/
def runningCount (s : SemState) : Nat :=
  s.tasks.countP (fun p => p == Phase.running)

/- ## Concrete inputs used by witnesses and counterexamples -/

/-- A manga whose chapter id `"x"` occurs in two volumes. -/
def cexVolumesManga : Manga :=
  { title := "t"
    direction := "ltr"
    authors := []
    volumes := [⟨1, "d1", [⟨"x"⟩]⟩, ⟨2, "d2", [⟨"x"⟩]⟩]
    chapter := ⟨"x", 1, 1, []⟩ }

/-- A chapter whose `pages` list repeats page number 1, with
`pageCount = 1`: the pages list has two entries but the dict
comprehension collapses them to one key. -/
def cexDupPagesManga : Manga :=
  { title := "t"
    direction := "ltr"
    authors := []
    volumes := []
    chapter := ⟨"c", 2, 1, [⟨1, "a"⟩, ⟨1, "b"⟩]⟩ }

/-- A successful metadata response carrying `cexDupPagesManga`. -/
def cexDupPagesResp : ChapterResponse :=
  ⟨200, RespBody.withData cexDupPagesManga⟩

/-- A manga with the two-page chapter of the spec's worked example. -/
def examplePagesManga : Manga :=
  { title := "t"
    direction := "rtl"
    authors := [⟨"au"⟩]
    volumes := []
    chapter := ⟨"c", 3, 2, [⟨1, "a"⟩, ⟨2, "b"⟩]⟩ }

/-- A successful metadata response carrying `examplePagesManga`. -/
def examplePagesResp : ChapterResponse :=
  ⟨200, RespBody.withData examplePagesManga⟩

/-- A manga whose server `pageCount` (5) disagrees with its two-entry
pages list, the page numbers being distinct. -/
def mismatchPagesManga : Manga :=
  { title := "t"
    direction := "ltr"
    authors := []
    volumes := []
    chapter := ⟨"c", 1, 5, [⟨1, "a"⟩, ⟨2, "b"⟩]⟩ }

/- ## Helper lemmas: the dict model -/

theorem dictGet_nil [BEq α] (k : α) : dictGet ([] : List (α × β)) k = none := rfl

theorem dictGet_cons [BEq α] (p : α × β) (m : List (α × β)) (k : α) :
    dictGet (p :: m) k = if p.1 == k then some p.2 else dictGet m k := by
  by_cases h : p.1 == k <;> simp [dictGet, List.find?_cons, h]

theorem dictGet_dictInsert_self [BEq α] [LawfulBEq α]
    (m : List (α × β)) (k : α) (v : β) :
    dictGet (dictInsert m k v) k = some v := by
  induction m with
  | nil => simp [dictInsert, dictGet_cons]
  | cons p m ih =>
    by_cases h : p.1 == k
    · simp [dictInsert, h, dictGet_cons]
    · simp [dictInsert, h, dictGet_cons, ih]

theorem dictGet_dictInsert_ne [BEq α] [LawfulBEq α]
    (m : List (α × β)) (k k' : α) (v : β) (hne : k' ≠ k) :
    dictGet (dictInsert m k v) k' = dictGet m k' := by
  have hkk' : ¬ (k == k') = true := by
    simp only [beq_iff_eq]
    exact fun hh => hne hh.symm
  induction m with
  | nil =>
    simp [dictInsert, dictGet_cons, dictGet_nil, hkk']
  | cons p m ih =>
    by_cases h : p.1 == k
    · have hpk : p.1 = k := by simpa using h
      simp [dictInsert, h, dictGet_cons, hkk', hpk]
    · simp [dictInsert, h, dictGet_cons, ih]

theorem length_dictInsert_of_get_none [BEq α]
    (m : List (α × β)) (k : α) (v : β) (h : dictGet m k = none) :
    (dictInsert m k v).length = m.length + 1 := by
  induction m with
  | nil => simp [dictInsert]
  | cons p m ih =>
    rw [dictGet_cons] at h
    by_cases hp : p.1 == k
    · simp [hp] at h
    · simp [hp] at h
      simp [dictInsert, hp, ih h]

/- ## Helper lemmas: the pages map fold -/

theorem dictGet_foldPages_of_not_mem (ps : List Page)
    (acc : List (Nat × String)) (k : Nat) (h : k ∉ ps.map Page.number) :
    dictGet (ps.foldl (fun mp p => dictInsert mp p.number p.id) acc) k =
      dictGet acc k := by
  induction ps generalizing acc with
  | nil => rfl
  | cons p t ih =>
    rw [List.map_cons, List.mem_cons, not_or] at h
    rw [List.foldl_cons, ih _ h.2]
    exact dictGet_dictInsert_ne acc p.number k p.id h.1

theorem dictGet_foldPages_mem (ps : List Page)
    (hnd : (ps.map Page.number).Nodup) (acc : List (Nat × String)) :
    ∀ p ∈ ps,
      dictGet (ps.foldl (fun mp q => dictInsert mp q.number q.id) acc) p.number =
        some p.id := by
  induction ps generalizing acc with
  | nil => intro p hp; cases hp
  | cons q t ih =>
    rw [List.map_cons, List.nodup_cons] at hnd
    intro p hp
    rcases List.mem_cons.mp hp with hpq | hp'
    · subst hpq
      rw [List.foldl_cons, dictGet_foldPages_of_not_mem t _ _ hnd.1,
        dictGet_dictInsert_self]
    · exact ih hnd.2 _ p hp'

theorem length_foldPages (ps : List Page) (acc : List (Nat × String))
    (hnd : (ps.map Page.number).Nodup)
    (hfresh : ∀ p ∈ ps, dictGet acc p.number = none) :
    (ps.foldl (fun mp p => dictInsert mp p.number p.id) acc).length =
      acc.length + ps.length := by
  induction ps generalizing acc with
  | nil => simp
  | cons q t ih =>
    rw [List.map_cons, List.nodup_cons] at hnd
    rw [List.foldl_cons, ih _ hnd.2 ?_,
      length_dictInsert_of_get_none acc q.number q.id
        (hfresh q (List.mem_cons_self q t))]
    · simp only [List.length_cons]
      omega
    · intro p hp
      rw [dictGet_dictInsert_ne acc q.number p.number q.id ?_]
      · exact hfresh p (List.mem_cons_of_mem q hp)
      · intro heq
        exact hnd.1 (heq ▸ List.mem_map_of_mem Page.number hp)

theorem pages_map_of_eq_build (ps : List Page) :
    pages_map_of ps = buildPagesMap ps := by
  cases ps <;> rfl

theorem length_pages_map_of_nodup (ps : List Page)
    (hnd : (ps.map Page.number).Nodup) :
    (pages_map_of ps).length = ps.length := by
  rw [pages_map_of_eq_build, buildPagesMap,
    length_foldPages ps [] hnd (fun p _ => rfl), List.length_nil, Nat.zero_add]

/- ## Helper lemmas: the volume scan -/

theorem list_find?_append (l1 l2 : List α) (p : α → Bool) :
    (l1 ++ l2).find? p =
      match l1.find? p with
      | some x => some x
      | none => l2.find? p := by
  induction l1 with
  | nil => simp
  | cons a t ih =>
    cases h : p a with
    | true => simp [List.find?, h]
    | false => simp [List.find?, h, ih]

theorem volumeScan_eq_reverse_find (cid : String) (vs : List Volume)
    (acc : String × String) :
    volumeScan cid vs acc =
      match vs.reverse.find? (fun v => v.chapters.any (fun c => c.id == cid)) with
      | some v => (toString v.number, v.description)
      | none => acc := by
  induction vs generalizing acc with
  | nil => rfl
  | cons v t ih =>
    rw [List.reverse_cons, list_find?_append]
    cases h : v.chapters.any (fun c => c.id == cid) with
    | true =>
      rw [volumeScan, if_pos h, ih]
      cases hv : t.reverse.find? (fun v => v.chapters.any (fun c => c.id == cid)) <;>
        simp [List.find?, h]
    | false =>
      rw [volumeScan, if_neg (by simp [h]), ih]
      cases hv : t.reverse.find? (fun v => v.chapters.any (fun c => c.id == cid)) <;>
        simp [List.find?, h]

/- ## Helper lemmas: the authentication loop -/

theorem authLoop_spec (probe : Nat → Option ProbeResponse)
    (prompts : Nat → String) :
    ∀ fuel b k tok k', authLoop probe prompts fuel b k = some (tok, k') →
      k ≤ k' ∧ is_token_valid (probe k') tok = true ∧
      (k' = k → tok = b) ∧ (k < k' → tok = prompts (k' - 1)) := by
  intro fuel
  induction fuel with
  | zero =>
    intro b k tok k' h
    rw [authLoop] at h
    by_cases hv : is_token_valid (probe k) b
    · rw [if_pos hv] at h
      cases h
      exact ⟨Nat.le_refl _, hv, fun _ => rfl, fun hlt => absurd hlt (Nat.lt_irrefl _)⟩
    · rw [if_neg hv] at h
      cases h
  | succ fuel ih =>
    intro b k tok k' h
    rw [authLoop] at h
    by_cases hv : is_token_valid (probe k) b
    · rw [if_pos hv] at h
      cases h
      exact ⟨Nat.le_refl _, hv, fun _ => rfl, fun hlt => absurd hlt (Nat.lt_irrefl _)⟩
    · rw [if_neg hv] at h
      obtain ⟨hle, hval, heq, hlt⟩ := ih (prompts k) (k + 1) tok k' h
      refine ⟨by omega, hval, fun hk => absurd hk (by omega), fun _ => ?_⟩
      by_cases hk1 : k' = k + 1
      · have := heq hk1
        subst this
        have : k' - 1 = k := by omega
        rw [this]
      · exact hlt (by omega)

/- ## Helper lemmas: the URL matcher -/

theorem matchGroups_some_ne_nil (s g1 g2 : List Char)
    (h : matchGroups s = some (g1, g2)) : g1 ≠ [] := by
  simp only [matchGroups] at h
  split at h
  · cases h
  · rename_i hne
    split at h
    · split at h
      · cases h
      · cases h
        simpa [List.isEmpty_iff] using hne
    · cases h

theorem searchFrom_some_ne_nil (cs g1 g2 : List Char)
    (h : searchFrom cs = some (g1, g2)) : g1 ≠ [] := by
  induction cs with
  | nil => cases h
  | cons c cs ih =>
    rw [searchFrom] at h
    split at h
    · split at h
      · rename_i r hr
        cases h
        exact matchGroups_some_ne_nil _ _ _ hr
      · exact ih h
    · exact ih h

/- ## Helper lemmas: the single-flight gate -/

theorem countP_replicate_pending (n : Nat) :
    (List.replicate n Phase.pending).countP (fun p => p == Phase.running) = 0 := by
  induction n with
  | zero => rfl
  | succ n ih => simp [List.replicate, List.countP_cons, ih]

theorem runningCount_mk (a : Nat) (l : List Phase) :
    runningCount ⟨a, l⟩ = l.countP (fun p => p == Phase.running) := rfl

theorem semInv_step (s s' : SemState) (h : SemStep s s')
    (hi : s.avail + runningCount s = 1) : s'.avail + runningCount s' = 1 := by
  cases h with
  | acquire i a hget ha =>
    rw [List.get?_eq_getElem?] at hget
    obtain ⟨hlt, hval⟩ := List.getElem?_eq_some.mp hget
    have hcount : (s.tasks.set i Phase.running).countP
        (fun p => p == Phase.running) = runningCount s + 1 := by
      rw [List.countP_set _ _ _ _ hlt, hval]
      simp [runningCount]
    show a + runningCount ⟨a, s.tasks.set i Phase.running⟩ = 1
    rw [runningCount_mk, hcount]
    omega
  | release i hget =>
    rw [List.get?_eq_getElem?] at hget
    obtain ⟨hlt, hval⟩ := List.getElem?_eq_some.mp hget
    have hpos : 0 < runningCount s := by
      rw [runningCount, List.countP_pos_iff]
      exact ⟨Phase.running, hval ▸ List.getElem_mem hlt, by simp⟩
    have hcount : (s.tasks.set i Phase.done).countP
        (fun p => p == Phase.running) = runningCount s - 1 := by
      rw [List.countP_set _ _ _ _ hlt, hval]
      simp [runningCount]
    show s.avail + 1 + runningCount ⟨s.avail + 1, s.tasks.set i Phase.done⟩ = 1
    rw [runningCount_mk, hcount]
    omega

/- ## Claim theorems -/

/-- C1: for every cached token accepted by the validator — `read_token`
loads a token on which `is_token_valid` returns `true` — `authenticate`
makes zero `get_bearer` (login) calls, whatever the login oracle would
answer, and on return the headers contain the authorization entry
`"Bearer "` followed by that token. -/
theorem c1_authenticate_cached_valid
    (probe : Nat → Option ProbeResponse) (prompts : Nat → String)
    (fuel : Nat) (st : AuthState) (t : String)
    (hc : st.cache = some t)
    (hv : is_token_valid (probe 0) t = true) :
    ∃ st', authenticate probe prompts fuel st = some (st', 0) ∧
      st'.bearer = t ∧
      dictGet st'.headers "authorization" = some ("Bearer " ++ t) := by
  have hread : read_token st = { st with bearer := t } := by
    unfold read_token
    rw [hc]
  have hloop : authLoop probe prompts fuel t 0 = some (t, 0) := by
    cases fuel <;> rw [authLoop] <;> rw [if_pos hv]
  have hauth : authenticate probe prompts fuel st =
      some ({ cache := some t, bearer := t,
              headers := dictInsert st.headers "authorization"
                ("Bearer " ++ t) }, 0) := by
    simp only [authenticate, hread, write_token]
    rw [hloop]
  exact ⟨_, hauth, rfl, dictGet_dictInsert_self _ _ _⟩

theorem c1_authenticate_cached_valid_witness :
    ∃ st', authenticate (fun _ => some ⟨200, [("status", "success")]⟩)
        (fun _ => "z") 0 ⟨some "tok", "", []⟩ = some (st', 0) ∧
      st'.bearer = "tok" ∧
      dictGet st'.headers "authorization" = some ("Bearer " ++ "tok") :=
  c1_authenticate_cached_valid (fun _ => some ⟨200, [("status", "success")]⟩)
    (fun _ => "z") 0 ⟨some "tok", "", []⟩ "tok" rfl (by decide)

/-- C2: for every cached token rejected by the validator (the empty token
included), a terminating `authenticate` run makes at least one
`get_bearer` call; the token it ends with is the one returned by the last
`get_bearer` call, it is accepted by the validator, it is persisted via
`write_token`, and a subsequent `read_token` yields exactly that token. -/
theorem c2_authenticate_relogin_persists
    (probe : Nat → Option ProbeResponse) (prompts : Nat → String)
    (fuel : Nat) (st st' : AuthState) (k : Nat)
    (hrej : is_token_valid (probe 0) (read_token st).bearer = false)
    (hrun : authenticate probe prompts fuel st = some (st', k)) :
    1 ≤ k ∧ st'.bearer = prompts (k - 1) ∧
    is_token_valid (probe k) st'.bearer = true ∧
    st'.cache = some st'.bearer ∧
    (read_token st').bearer = st'.bearer := by
  simp only [authenticate] at hrun
  cases hloop : authLoop probe prompts fuel (read_token st).bearer 0 with
  | none => rw [hloop] at hrun; cases hrun
  | some p =>
    obtain ⟨tok, k0⟩ := p
    rw [hloop] at hrun
    simp only [write_token] at hrun
    cases hrun
    obtain ⟨_, hval, heq0, hlt0⟩ :=
      authLoop_spec probe prompts fuel (read_token st).bearer 0 tok k hloop
    have hk : 1 ≤ k := by
      rcases Nat.eq_zero_or_pos k with h0 | h1
      · rw [heq0 h0, h0] at hval
        rw [hval] at hrej
        exact absurd hrej (by decide)
      · exact h1
    refine ⟨hk, ?_, ?_, rfl, rfl⟩
    · exact hlt0 (by omega)
    · exact hval

theorem c2_authenticate_relogin_persists_witness :
    1 ≤ 1 ∧
    (⟨some "new", "new", [("authorization", "Bearer new")]⟩ : AuthState).bearer =
      (fun _ : Nat => "new") (1 - 1) ∧
    is_token_valid ((fun k : Nat =>
        if k = 0 then none else some ⟨200, [("status", "success")]⟩) 1)
      (⟨some "new", "new", [("authorization", "Bearer new")]⟩ : AuthState).bearer
        = true ∧
    (⟨some "new", "new", [("authorization", "Bearer new")]⟩ : AuthState).cache =
      some (⟨some "new", "new", [("authorization", "Bearer new")]⟩ : AuthState).bearer ∧
    (read_token ⟨some "new", "new", [("authorization", "Bearer new")]⟩).bearer =
      (⟨some "new", "new", [("authorization", "Bearer new")]⟩ : AuthState).bearer :=
  c2_authenticate_relogin_persists
    (fun k => if k = 0 then none else some ⟨200, [("status", "success")]⟩)
    (fun _ => "new") 1 ⟨some "old", "", []⟩
    ⟨some "new", "new", [("authorization", "Bearer new")]⟩ 1
    (by decide) (by decide)

/-- C3: `is_token_valid` fails closed: an empty token, a network error
during the probe (`none`), an HTTP status other than 200, or a response
body whose `status` field is not `"success"` each yield `false`; the
function is total, so no exception reaches the caller in these cases. -/
theorem c3_is_token_valid_fails_closed
    (probeResult : Option ProbeResponse) (bearer : String) :
    (bearer = "" → is_token_valid probeResult bearer = false) ∧
    (probeResult = none → is_token_valid probeResult bearer = false) ∧
    (∀ r, probeResult = some r → r.status_code ≠ 200 →
      is_token_valid probeResult bearer = false) ∧
    (∀ r, probeResult = some r → dictGet r.body "status" ≠ some "success" →
      is_token_valid probeResult bearer = false) := by
  refine ⟨fun h => ?_, fun h => ?_, fun r h hs => ?_, fun r h hs => ?_⟩
  · simp [is_token_valid, h]
  · simp only [h, is_token_valid]
    split <;> rfl
  · subst h
    simp [is_token_valid, hs]
  · subst h
    simp [is_token_valid, hs]

theorem c3_is_token_valid_fails_closed_witness :
    is_token_valid (some ⟨200, [("status", "success")]⟩) "" = false ∧
    is_token_valid none "tok" = false ∧
    is_token_valid (some ⟨500, [("status", "success")]⟩) "tok" = false ∧
    is_token_valid (some ⟨200, [("status", "expired")]⟩) "tok" = false :=
  ⟨(c3_is_token_valid_fails_closed (some ⟨200, [("status", "success")]⟩) "").1 rfl,
   (c3_is_token_valid_fails_closed none "tok").2.1 rfl,
   (c3_is_token_valid_fails_closed (some ⟨500, [("status", "success")]⟩)
     "tok").2.2.1 ⟨500, [("status", "success")]⟩ rfl (by decide),
   (c3_is_token_valid_fails_closed (some ⟨200, [("status", "expired")]⟩)
     "tok").2.2.2 ⟨200, [("status", "expired")]⟩ rfl (by decide)⟩

/-- C4: every metadata response with a non-200 HTTP status, a falsy JSON
document, or a document whose top-level `data` is missing/falsy maps to
the sentinel `BookInfos` with empty title and zero pages; `get_book_infos`
is total, so no exception is raised in these cases. -/
theorem c4_get_book_infos_sentinel (resp : ChapterResponse) :
    (resp.status_code ≠ 200 →
      (get_book_infos resp).title = "" ∧ (get_book_infos resp).pages = 0) ∧
    (resp.body = RespBody.empty →
      (get_book_infos resp).title = "" ∧ (get_book_infos resp).pages = 0) ∧
    (resp.body = RespBody.noData →
      (get_book_infos resp).title = "" ∧ (get_book_infos resp).pages = 0) := by
  refine ⟨fun h => ?_, fun h => ?_, fun h => ?_⟩
  · simp [get_book_infos, h]
  · by_cases hs : resp.status_code ≠ 200
    · simp [get_book_infos, hs]
    · simp [get_book_infos, hs, h]
  · by_cases hs : resp.status_code ≠ 200
    · simp [get_book_infos, hs]
    · simp [get_book_infos, hs, h]

theorem c4_get_book_infos_sentinel_witness :
    ((get_book_infos ⟨500, RespBody.empty⟩).title = "" ∧
      (get_book_infos ⟨500, RespBody.empty⟩).pages = 0) ∧
    ((get_book_infos ⟨200, RespBody.empty⟩).title = "" ∧
      (get_book_infos ⟨200, RespBody.empty⟩).pages = 0) ∧
    ((get_book_infos ⟨200, RespBody.noData⟩).title = "" ∧
      (get_book_infos ⟨200, RespBody.noData⟩).pages = 0) :=
  ⟨(c4_get_book_infos_sentinel ⟨500, RespBody.empty⟩).1 (by decide),
   (c4_get_book_infos_sentinel ⟨200, RespBody.empty⟩).2.1 rfl,
   (c4_get_book_infos_sentinel ⟨200, RespBody.noData⟩).2.2 rfl⟩

/-- C5 (counterexample): with chapter id `"x"` present in the chapter
lists of both volume 1 and volume 2, the resolved volume fields are those
of volume 2, the *last* matching volume — not volume 1, the first one, as
the claim states. -/
theorem c5_first_match_counterexample :
    (fill_infos cexVolumesManga).volume = "2" ∧
    (fill_infos cexVolumesManga).description = "d2" ∧
    ¬((fill_infos cexVolumesManga).volume = "1" ∧
      (fill_infos cexVolumesManga).description = "d1") := by
  refine ⟨rfl, rfl, ?_⟩
  intro h
  exact absurd h.1 (by decide)

/-- C5 (amended): the volume scan is linear and the *last* volume whose
chapter list contains the target chapter id wins (the `break` leaves only
the inner loop): the resolved `(volume, description)` pair comes from the
last such volume; in particular it is that volume's data when exactly one
volume matches, and both fields stay empty when no volume matches. -/
theorem c5_volume_scan_last_match (m : Manga) :
    ((fill_infos m).volume, (fill_infos m).description) =
      match m.volumes.reverse.find?
          (fun v => v.chapters.any (fun c => c.id == m.chapter.id)) with
      | some v => (toString v.number, v.description)
      | none => ("", "") :=
  volumeScan_eq_reverse_find m.chapter.id m.volumes ("", "")

/-- C6: on a successful metadata response the attached table is the dict
built from the pages list, mapping each page's number to its id (under
distinct page numbers, and literally `{1: "a", 2: "b"}` on the example
pages list), and the page-URL placeholder list has exactly as many entries
as the table — zero when the server returned no pages. -/
theorem c6_pages_map_construction (m : Manga) :
    (get_book_infos ⟨200, RespBody.withData m⟩).custom_fields =
      some (pages_map_of m.chapter.pages) ∧
    (get_book_infos ⟨200, RespBody.withData m⟩).page_urls.length =
      (pages_map_of m.chapter.pages).length ∧
    (m.chapter.pages = [] →
      (get_book_infos ⟨200, RespBody.withData m⟩).page_urls.length = 0) ∧
    ((m.chapter.pages.map Page.number).Nodup →
      ∀ p ∈ m.chapter.pages,
        dictGet (pages_map_of m.chapter.pages) p.number = some p.id) ∧
    pages_map_of [⟨1, "a"⟩, ⟨2, "b"⟩] = [(1, "a"), (2, "b")] := by
  refine ⟨rfl, ?_, fun h => ?_, fun hnd p hp => ?_, rfl⟩
  · show (List.replicate (pages_map_of m.chapter.pages).length "").length = _
    rw [List.length_replicate]
  · show (List.replicate (pages_map_of m.chapter.pages).length "").length = 0
    rw [h]
    rfl
  · rw [pages_map_of_eq_build]
    exact dictGet_foldPages_mem m.chapter.pages hnd [] p hp

theorem c6_pages_map_construction_witness :
    (get_book_infos ⟨200, RespBody.withData examplePagesManga⟩).custom_fields =
      some (pages_map_of examplePagesManga.chapter.pages) ∧
    dictGet (pages_map_of examplePagesManga.chapter.pages) 1 = some "a" ∧
    dictGet (pages_map_of examplePagesManga.chapter.pages) 2 = some "b" ∧
    (get_book_infos ⟨200, RespBody.withData examplePagesManga⟩).page_urls.length
      = 2 := by
  have h := c6_pages_map_construction examplePagesManga
  exact ⟨h.1, h.2.2.2.1 (by decide) ⟨1, "a"⟩ (by decide),
    h.2.2.2.1 (by decide) ⟨2, "b"⟩ (by decide), h.2.1.trans (by decide)⟩

/-- C7: whenever `page_num + 1` is not a key of the attached page table —
in particular when the table is absent (error sentinel) or empty — the
page resolver returns the empty string without issuing the `getPageById`
network call. -/
theorem c7_before_download_page_missing_key
    (metaResp : ChapterResponse) (fetchPage : String → Option String)
    (page_num : Nat)
    (h : (get_book_infos metaResp).custom_fields = none ∨
      ∃ pm, (get_book_infos metaResp).custom_fields = some pm ∧
        dictGet pm (page_num + 1) = none) :
    before_download_page metaResp fetchPage page_num = ("", false) := by
  simp only [before_download_page]
  rcases h with h | ⟨pm, hpm, hget⟩
  · simp only [h]
  · simp only [hpm, hget]

theorem c7_before_download_page_missing_key_witness :
    before_download_page ⟨500, RespBody.empty⟩ (fun _ => none) 0 = ("", false) ∧
    before_download_page examplePagesResp (fun _ => some "u") 5 = ("", false) :=
  ⟨c7_before_download_page_missing_key ⟨500, RespBody.empty⟩ (fun _ => none) 0
      (Or.inl rfl),
    c7_before_download_page_missing_key examplePagesResp (fun _ => some "u") 5
      (Or.inr ⟨pages_map_of examplePagesManga.chapter.pages, rfl, rfl⟩)⟩

/-- C8: once `_parse_url` has set `(slug, chapter_nb)` from a matching URL
(the slug group is never empty), every further `_parse_url` call — on any
URL — leaves the pair unchanged; and the chapter segment `"12.5"` parses
to the exact value 12.5 = 25/2. -/
theorem c8_parse_url_idempotent
    (url : String) (st : ParseState) (g1 g2 : List Char) (q : Rat)
    (hslug : st.slug = "")
    (hsearch : searchFrom url.toList = some (g1, g2))
    (hfloat : parsePyFloat (String.mk g2) = some q) :
    parse_url url st = some ⟨String.mk g1, q⟩ ∧
    (∀ url2, parse_url url2 ⟨String.mk g1, q⟩ = some ⟨String.mk g1, q⟩) ∧
    parsePyFloat "12.5" = some (mkRat 25 2) ∧
    mkRat 25 2 = (25 : Rat) / 2 := by
  have hg1 : ¬ String.mk g1 = "" := by
    intro hcon
    apply searchFrom_some_ne_nil url.toList g1 g2 hsearch
    have h2 := congrArg String.data hcon
    simpa using h2
  have hsearch2 : searchFrom url.data = some (g1, g2) := hsearch
  refine ⟨?_, fun url2 => ?_, by decide, by norm_num [mkRat, Rat.normalize]⟩
  · simp [parse_url, hslug, hsearch, hsearch2, hfloat]
  · simp [parse_url, hg1]

theorem c8_parse_url_idempotent_witness :
    parse_url "https://www.mangas.io/lire/demo-slug/12.5" ⟨"", 0⟩ =
      some ⟨String.mk "demo-slug".toList, mkRat 25 2⟩ ∧
    parse_url "https://www.mangas.io/lire/demo-slug/12.5"
        ⟨String.mk "demo-slug".toList, mkRat 25 2⟩ =
      some ⟨String.mk "demo-slug".toList, mkRat 25 2⟩ ∧
    parsePyFloat "12.5" = some (mkRat 25 2) ∧
    mkRat 25 2 = (25 : Rat) / 2 := by
  have h := c8_parse_url_idempotent "https://www.mangas.io/lire/demo-slug/12.5"
    ⟨"", 0⟩ "demo-slug".toList "12.5".toList (mkRat 25 2)
    rfl (by decide) (by decide)
  exact ⟨h.1, h.2.1 "https://www.mangas.io/lire/demo-slug/12.5", h.2.2⟩

/-- C9: under the semaphore discipline of `async with self.sem` with
`sem = asyncio.Semaphore(1)`, in every state reachable from `n` pending
page requests at most one `before_download_page` body (metadata re-fetch
and page-URL call included) is executing. -/
theorem c9_single_flight_mutual_exclusion (n : Nat) (s : SemState)
    (h : Relation.ReflTransGen SemStep (initSem n) s) :
    runningCount s ≤ 1 := by
  have hinv : s.avail + runningCount s = 1 := by
    induction h with
    | refl =>
      show (initSem n).avail + runningCount (initSem n) = 1
      rw [initSem, runningCount_mk, countP_replicate_pending]
    | tail h1 h2 ih => exact semInv_step _ _ h2 ih
  omega

theorem c9_single_flight_mutual_exclusion_witness :
    runningCount ⟨0, [Phase.running, Phase.pending]⟩ ≤ 1 :=
  c9_single_flight_mutual_exclusion 2 ⟨0, [Phase.running, Phase.pending]⟩
    (Relation.ReflTransGen.single
      (by exact SemStep.acquire (initSem 2) 0 0 rfl rfl))

/-- C10 (counterexample): with `pageCount = 1` and pages list
`[(1,"a"),(1,"b")]` (a duplicated page number), the reported page count
(1) disagrees with the pages-list length (2), yet it *equals* the
placeholder list length (1), refuting the claim's "the reported page
count and the page-URL placeholder list length differ". -/
theorem c10_page_count_counterexample :
    (get_book_infos cexDupPagesResp).pages ≠
      cexDupPagesManga.chapter.pages.length ∧
    (get_book_infos cexDupPagesResp).pages =
      (get_book_infos cexDupPagesResp).page_urls.length := by
  exact ⟨by decide, by decide⟩

/-- C10 (amended): the `pages` field always equals the server-supplied
`pageCount`, independent of the table; the placeholder list length equals
the number of *distinct* page numbers, so when the page numbers are
pairwise distinct and `pageCount` disagrees with the pages-list length,
the reported page count and the placeholder list length differ. -/
theorem c10_pages_eq_page_count (m : Manga) :
    (get_book_infos ⟨200, RespBody.withData m⟩).pages = m.chapter.pageCount ∧
    ((m.chapter.pages.map Page.number).Nodup →
      m.chapter.pageCount ≠ m.chapter.pages.length →
      (get_book_infos ⟨200, RespBody.withData m⟩).pages ≠
        (get_book_infos ⟨200, RespBody.withData m⟩).page_urls.length) := by
  refine ⟨rfl, fun hnd hne => ?_⟩
  have h2 : (get_book_infos ⟨200, RespBody.withData m⟩).page_urls.length
      = m.chapter.pages.length := by
    show (List.replicate (pages_map_of m.chapter.pages).length "").length = _
    rw [List.length_replicate, length_pages_map_of_nodup _ hnd]
  rw [h2]
  exact hne

theorem c10_pages_eq_page_count_witness :
    (get_book_infos ⟨200, RespBody.withData mismatchPagesManga⟩).pages =
      mismatchPagesManga.chapter.pageCount ∧
    (get_book_infos ⟨200, RespBody.withData mismatchPagesManga⟩).pages ≠
      (get_book_infos ⟨200, RespBody.withData mismatchPagesManga⟩).page_urls.length := by
  have h := c10_pages_eq_page_count mismatchPagesManga
  exact ⟨h.1, h.2 (by decide) (by decide)⟩
